import Mathlib

/-!
Shallow embedding of `scripts/deploy.py` (the Anthony Store deployment
orchestrator) and proofs about its behaviour.

The embedding models:
 * JSON values as produced by the `json` module (`JValue`),
 * the configuration loader `load_deployment_config` with its
   merge-onto-defaults and write-defaults behaviour,
 * the command runner `run_command` over an abstract process outcome,
 * the health-check retry loop,
 * backup naming/creation and backup rotation,
 * the top-level `deploy` pipeline and `main`, as a trace-producing
   computation over an abstract world (process outcomes, filesystem flags).
-/

namespace Deploy

/-- JSON values as produced by `json.load`.  Numeric literals are modelled
as integers; the configuration data in this program uses no fractional
numbers. -/
inductive JValue where
  | jnull
  | jbool (b : Bool)
  | jnum (n : Int)
  | jstr (s : String)
  | jarr (elems : List JValue)
  | jobj (fields : List (String × JValue))

/-- A Python dict with string keys (insertion-ordered association list,
keys unique). -/
abbrev Obj := List (String × JValue)

/-- Python dict lookup `o[k]` / `o.get(k)`. -/
def objLookup (o : Obj) (k : String) : Option JValue :=
  match o with
  | [] => none
  | (k', v) :: rest => if k' = k then some v else objLookup rest k

/-- Python `d[k] = v`: overwrite in place if the key exists (keeping its
position), otherwise append. -/
def objInsert (o : Obj) (k : String) (v : JValue) : Obj :=
  match o with
  | [] => [(k, v)]
  | (k', v') :: rest =>
    if k' = k then (k', v) :: rest else (k', v') :: objInsert rest k v

/-- Python `base.update(upd)` for a dict argument. -/
def objUpdate (base : Obj) (upd : Obj) : Obj :=
  upd.foldl (fun acc kv => objInsert acc kv.1 kv.2) base

/-- Default record for the `local` environment (deploy.py lines 48-55). -/
def defaultLocal : Obj :=
  [("python_version", .jstr "3.11"),
   ("database", .jstr "sqlite"),
   ("redis_required", .jbool false),
   ("static_files", .jbool true),
   ("migrations", .jbool true),
   ("fixtures", .jbool true)]

/-- Default record for the `docker` environment (deploy.py lines 56-63). -/
def defaultDocker : Obj :=
  [("python_version", .jstr "3.11"),
   ("database", .jstr "postgresql"),
   ("redis_required", .jbool true),
   ("static_files", .jbool true),
   ("migrations", .jbool true),
   ("fixtures", .jbool true)]

/-- Default record for the `kubernetes` environment (deploy.py lines 64-73). -/
def defaultKubernetes : Obj :=
  [("python_version", .jstr "3.11"),
   ("database", .jstr "postgresql"),
   ("redis_required", .jbool true),
   ("static_files", .jbool true),
   ("migrations", .jbool true),
   ("fixtures", .jbool false),
   ("namespace", .jstr "anthony-store"),
   ("helm_chart", .jstr "./charts/store-chart")]

/-- Default record for the `github` environment (deploy.py lines 74-81). -/
def defaultGithub : Obj :=
  [("python_version", .jstr "3.11"),
   ("database", .jstr "postgresql"),
   ("redis_required", .jbool true),
   ("static_files", .jbool true),
   ("migrations", .jbool true),
   ("fixtures", .jbool false)]

/-- The built-in `default_config` dict of `load_deployment_config`. -/
def default_config : List (String × Obj) :=
  [("local", defaultLocal),
   ("docker", defaultDocker),
   ("kubernetes", defaultKubernetes),
   ("github", defaultGithub)]

/-- Substring test on character lists (Python `needle in hay` for
strings). -/
def charsInfixOf (needle : List Char) : List Char → Bool
  | [] => needle.isEmpty
  | c :: rest => needle.isPrefixOf (c :: rest) || charsInfixOf needle rest

/-- Python membership test `k in v` on a JSON value: key membership for
dicts, element membership for lists (a string compares equal only to the
same string), substring test for strings; on the remaining
(non-container) values `in` raises TypeError. -/
def jMember (k : String) (v : JValue) : Except String Bool :=
  match v with
  | .jobj fields => .ok (objLookup fields k).isSome
  | .jarr elems =>
    .ok (elems.any (fun e => match e with | .jstr s => decide (s = k) | _ => false))
  | .jstr s => .ok (charsInfixOf k.data s.data)
  | _ => .error "TypeError: argument of type is not iterable"

/-- Python indexing `v[k]` with a string key: dict lookup (KeyError when
absent); list and string indexing by a string raises TypeError, as does
indexing any non-container. -/
def jIndex (v : JValue) (k : String) : Except String JValue :=
  match v with
  | .jobj fields =>
    match objLookup fields k with
    | some x => .ok x
    | none => .error "KeyError"
  | _ => .error "TypeError: indices must be integers"

/-- Python `base.update(x)` with a JSON value argument: merges a dict;
a non-dict argument is modelled as raising (TypeError/ValueError). -/
def jUpdate (base : Obj) (x : JValue) : Except String Obj :=
  match x with
  | .jobj fields => .ok (objUpdate base fields)
  | _ => .error "TypeError: update argument is not a mapping"

/-- The merge loop of `load_deployment_config` (deploy.py lines 88-90):
`for env in default_config: if env in user_config:
default_config[env].update(user_config[env])`.  The dict is mutated in
place, so when an exception occurs mid-loop the partially merged dict
survives; the result carries the merged (possibly partial) config and
the exception, if one was raised. -/
def mergeLoop (user : JValue) (acc : List (String × Obj)) :
    List (String × Obj) → List (String × Obj) × Option String
  | [] => (acc, none)
  | (env, r) :: rest =>
    match jMember env user with
    | .error e => (acc ++ (env, r) :: rest, some e)
    | .ok false => mergeLoop user (acc ++ [(env, r)]) rest
    | .ok true =>
      match jIndex user env with
      | .error e => (acc ++ (env, r) :: rest, some e)
      | .ok x =>
        match jUpdate r x with
        | .error e => (acc ++ (env, r) :: rest, some e)
        | .ok r' => mergeLoop user (acc ++ [(env, r')]) rest

/-- State of `deployment-config.json` on disk, as seen through
`json.load`: absent, present but unreadable/unparsable (this includes an
empty file), or present with parsed content `v`. -/
inductive ConfigFile where
  | absent
  | malformed
  | parsed (v : JValue)

/-- Serialization of a config dict back to a JSON value (`json.dump`). -/
def configToJ (cfg : List (String × Obj)) : JValue :=
  .jobj (cfg.map (fun p => (p.1, .jobj p.2)))

/-- Result of `load_deployment_config`: the returned config and the state
of the config file afterwards. -/
structure LoadResult where
  config : List (String × Obj)
  file : ConfigFile

/-- `load_deployment_config` (deploy.py lines 43-102).  `writeOk`
abstracts whether opening the file for writing succeeds (a failed write
is caught and logged, deploy.py lines 99-100). -/
def load_deployment_config (file : ConfigFile) (writeOk : Bool) : LoadResult :=
  match file with
  | .parsed user =>
    match mergeLoop user [] default_config with
    | (cfg, none) => ⟨cfg, .parsed user⟩
    | (cfg, some _) =>
      ⟨cfg, if writeOk then .parsed (configToJ cfg) else file⟩
  | .malformed =>
    ⟨default_config, if writeOk then .parsed (configToJ default_config) else file⟩
  | .absent =>
    ⟨default_config, if writeOk then .parsed (configToJ default_config) else .absent⟩

/-- Modelled from the spec: the per-environment record schema of spec
sections 3 and 6 — `python_version` and `database` strings,
`redis_required`, `static_files`, `migrations`, `fixtures` booleans, and
optional string fields `namespace` and `helm_chart`. -/
def specSchemaOk (r : Obj) : Bool :=
  (match objLookup r "python_version" with | some (.jstr _) => true | _ => false) &&
  (match objLookup r "database" with | some (.jstr _) => true | _ => false) &&
  (match objLookup r "redis_required" with | some (.jbool _) => true | _ => false) &&
  (match objLookup r "static_files" with | some (.jbool _) => true | _ => false) &&
  (match objLookup r "migrations" with | some (.jbool _) => true | _ => false) &&
  (match objLookup r "fixtures" with | some (.jbool _) => true | _ => false) &&
  (match objLookup r "namespace" with | some (.jstr _) => true | some _ => false | none => true) &&
  (match objLookup r "helm_chart" with | some (.jstr _) => true | some _ => false | none => true)

/-! ### Command runner (deploy.py lines 104-141) -/

/-- A `subprocess.CompletedProcess` as used by the script. -/
structure CommandResult where
  returncode : Int
  stdout : String
  stderr : String
deriving DecidableEq, Repr

/-- Outcome of spawning one external process: it ran to completion with
an exit code and output, it exceeded the timeout, or spawning itself
failed (e.g. executable not found). -/
inductive ProcOutcome where
  | completed (returncode : Int) (stdout stderr : String)
  | timedOut
  | spawnFailed (msg : String)
deriving DecidableEq, Repr

/-- `run_command` (deploy.py lines 104-141), with the process behaviour
abstracted into `outcome`.  `subprocess.run` raises `CalledProcessError`
exactly when `check` is set and the exit code is nonzero; the handler
re-raises as `DeploymentError`.  Timeouts and unexpected spawn errors
become `DeploymentError` as well.  `DeploymentError` is modelled as the
error message carried by `Except.error`. -/
def run_command (check : Bool) (outcome : ProcOutcome) : Except String CommandResult :=
  match outcome with
  | .completed code out err =>
    if check && code != 0 then .error "Command failed"
    else .ok ⟨code, out, err⟩
  | .timedOut => .error "Command timed out"
  | .spawnFailed m => .error ("Unexpected error: " ++ m)

/-! ### Health check (deploy.py lines 469-508) -/

/-- Outcome of one `requests.get` against the health URL: an HTTP
response with a status code, or a `requests.RequestException`. -/
inductive AttemptOutcome where
  | response (status : Nat)
  | requestFailed
deriving DecidableEq, Repr

/-- The `health_urls` dict of `health_check` (deploy.py lines 473-478). -/
def health_urls : List (String × Option String) :=
  [("local", some "http://localhost:8000/health/"),
   ("docker", some "http://localhost:8000/health/"),
   ("kubernetes", none),
   ("github", none)]

/-- `health_urls.get(environment)`: `None` both for the explicit `None`
entries and for unknown environments. -/
def healthUrl (env : String) : Option String :=
  (health_urls.lookup env).getD none

/-- Observable behaviour of one `health_check` call. -/
structure HealthObs where
  attempts : Nat
  passed : Bool
  warned : Bool
deriving DecidableEq, Repr

/-- The retry loop `for attempt in range(5)` (deploy.py lines 491-501):
returns the number of GET requests made and whether a request returned
status code 200 (upon which the method returns immediately).  A
`RequestException` and a non-200 response both fall through to the next
attempt. -/
def healthLoop (att : Nat → AttemptOutcome) (i : Nat) : Nat → Nat × Bool
  | 0 => (0, false)
  | fuel + 1 =>
    if att i = .response 200 then (1, true)
    else
      let r := healthLoop att (i + 1) fuel
      (r.1 + 1, r.2)

/-- `health_check` (deploy.py lines 469-508) over an abstract sequence of
attempt outcomes.  Environments without a health URL return immediately;
otherwise up to 5 attempts are made and a warning is logged when none of
them returned 200.  The function is total: no outcome sequence makes it
raise. -/
def health_check (env : String) (att : Nat → AttemptOutcome) : HealthObs :=
  match healthUrl env with
  | none => ⟨0, false, false⟩
  | some _ =>
    let r := healthLoop att 0 5
    ⟨r.1, r.2, !r.2⟩

/-! ### Backup creation (deploy.py lines 188-225) -/

/-- Fuel-driven digit extraction; with fuel above `n` it produces the
decimal digits of `n`, most significant first. -/
def decimalDigitsAux : Nat → Nat → List Char
  | 0, _ => []
  | fuel + 1, n =>
    if n < 10 then [Nat.digitChar n]
    else decimalDigitsAux fuel (n / 10) ++ [Nat.digitChar (n % 10)]

/-- Decimal digit characters of a natural number, most significant
first — the decimal rendering used by the f-string
`f"backup_{environment}_{timestamp}"` for the integer timestamp. -/
def decimalDigits (n : Nat) : List Char := decimalDigitsAux (n + 1) n

/-- `backup_name = f"backup_{self.environment}_{timestamp}"` with
`timestamp = int(time.time())` (deploy.py lines 192-193). -/
def backup_name (env : String) (timestamp : Nat) : String :=
  "backup_" ++ env ++ "_" ++ ⟨decimalDigits timestamp⟩

/-- Observable result of one `create_backup` call. -/
structure BackupResult where
  path : String
  reusedExisting : Bool
deriving DecidableEq, Repr

/-- Directory handling of `create_backup` (deploy.py lines 188-225):
the backup directory is created with `mkdir(exist_ok=True)`, so a name
collision silently reuses the existing directory and the subsequent
copies write into it.  Returns the backup path together with the updated
list of directory names under the backup root. -/
def create_backup (env : String) (timestamp : Nat) (existing : List String) :
    BackupResult × List String :=
  let name := backup_name env timestamp
  (⟨name, existing.contains name⟩,
   if existing.contains name then existing else existing ++ [name])

/-! ### Backup rotation (deploy.py lines 541-555) -/

/-- An entry matching `backup_*` under the backup root, with its creation
time (`os.path.getctime`). -/
structure BackupEntry where
  name : String
  ctime : Nat
deriving DecidableEq, Repr

/-- Ascending-by-ctime comparison used by
`sorted(self.backup_dir.glob('backup_*'), key=os.path.getctime)`. -/
def ctimeLe (a b : BackupEntry) : Bool := a.ctime ≤ b.ctime

/-- `cleanup_old_backups` (deploy.py lines 541-555): sorts the entries
ascending by creation time and deletes `backups[:-7]`, i.e. everything
except the 7 most recent.  Returns `(deleted, kept)`. -/
def cleanup_old_backups (entries : List BackupEntry) :
    List BackupEntry × List BackupEntry :=
  let backups := entries.mergeSort ctimeLe
  (backups.take (backups.length - 7), backups.drop (backups.length - 7))

/-! ### The deployment pipeline (deploy.py lines 510-592) -/

/-- Log/trace events of a pipeline run.  `cmd` records an attempt to
spawn an external process; `echo` records `logger.info(result.stdout)`
raw output echoes. -/
inductive Ev where
  | cmd (argv : List String)
  | info (msg : String)
  | warn (msg : String)
  | errorLog (msg : String)
  | echo (stdout : String)
deriving DecidableEq, Repr

/-- A pipeline computation: threads the `backup_path` binding of
`deploy` and emits a trace delta; `Except.error` models a raised
exception (`DeploymentError` or otherwise), carrying its message. -/
def DeployM (α : Type) : Type :=
  Option String → Except String α × List Ev × Option String

instance : Monad DeployM where
  pure a := fun b => (.ok a, [], b)
  bind x f := fun b =>
    match x b with
    | (.ok a, δ₁, b₁) =>
      match f a b₁ with
      | (r, δ₂, b₂) => (r, δ₁ ++ δ₂, b₂)
    | (.error e, δ₁, b₁) => (.error e, δ₁, b₁)

instance : MonadExceptOf String DeployM where
  throw e := fun b => (.error e, [], b)
  tryCatch x h := fun b =>
    match x b with
    | (.ok a, δ, b') => (.ok a, δ, b')
    | (.error e, δ, b') =>
      match h e b' with
      | (r, δ₂, b₂) => (r, δ ++ δ₂, b₂)

/-- Emit one log event. -/
def logEv (e : Ev) : DeployM Unit := fun b => (.ok (), [e], b)

/-- The assignment `backup_path = self.create_backup()` in `deploy`. -/
def setBackupPath (p : String) : DeployM Unit := fun _ => (.ok (), [], some p)

/-- The world a deployment runs against: per-command process outcomes,
the config file, filesystem facts, injected backup/cleanup failures, the
clock second, and health-probe outcomes. -/
structure World where
  cmdOutcome : List String → ProcOutcome
  configFile : ConfigFile
  configWriteOk : Bool
  venvExists : Bool
  requirementsExists : Bool
  setupScriptExists : Bool
  workflowExists : Bool
  dbExists : Bool
  mediaExists : Bool
  envFileExists : Bool
  backupFails : Bool
  cleanupFails : Bool
  timestamp : Nat
  healthAttempt : Nat → AttemptOutcome

/-- `self.run_command(...)` inside the pipeline: logs the argv, records
the spawn, and applies `run_command` to the world's outcome for this
argv. -/
def runCmdM (w : World) (argv : List String) (check : Bool) : DeployM CommandResult := do
  logEv (.info ("Running command: " ++ String.intercalate " " argv))
  logEv (.cmd argv)
  match run_command check (w.cmdOutcome argv) with
  | .ok r => do
    if r.stdout != "" then logEv (.info ("Command output: " ++ r.stdout))
    pure r
  | .error m => throw m

/-- Worker for `pySplitWs`: scans the characters, collecting the current
token in reverse. -/
def pySplitWsAux (cur : List Char) : List Char → List String
  | [] => if cur.isEmpty then [] else [⟨cur.reverse⟩]
  | c :: rest =>
    if c.isWhitespace then
      if cur.isEmpty then pySplitWsAux [] rest
      else ⟨cur.reverse⟩ :: pySplitWsAux [] rest
    else pySplitWsAux (c :: cur) rest

/-- Python `str.strip().split()` with no argument: the maximal
non-whitespace runs of the string. -/
def pySplitWs (s : String) : List String := pySplitWsAux [] s.data

/-- Python `str.startswith(pre)`. -/
def pyStartsWith (s pre : String) : Bool := pre.data.isPrefixOf s.data

/-- Python `str.strip()`: the string without leading and trailing
whitespace. -/
def pyStrip (s : String) : String :=
  ⟨((s.data.dropWhile Char.isWhitespace).reverse.dropWhile Char.isWhitespace).reverse⟩

/-- `self.deployment_config.get(env, {})`. -/
def configGet (cfg : List (String × Obj)) (env : String) : Obj :=
  (cfg.lookup env).getD []

/-- `check_docker` (deploy.py lines 172-178). -/
def check_docker (w : World) : DeployM Unit :=
  try do
    let _ ← runCmdM w ["docker", "--version"] true
    let _ ← runCmdM w ["docker-compose", "--version"] true
    pure ()
  catch _ =>
    throw "Docker and Docker Compose are required for Docker deployment"

/-- `check_kubernetes` (deploy.py lines 180-186). -/
def check_kubernetes (w : World) : DeployM Unit :=
  try do
    let _ ← runCmdM w ["kubectl", "version", "--client"] true
    let _ ← runCmdM w ["helm", "version"] true
    pure ()
  catch _ =>
    throw "kubectl and Helm are required for Kubernetes deployment"

/-- `check_prerequisites` (deploy.py lines 143-170). -/
def check_prerequisites (w : World) (env : String) (cfg : List (String × Obj)) :
    DeployM Unit := do
  logEv (.info "Checking prerequisites...")
  let econf := configGet cfg env
  let pythonVersion := (objLookup econf "python_version").getD (.jstr "3.11")
  try do
    let r ← runCmdM w ["python", "--version"] true
    match (pySplitWs r.stdout)[1]? with
    | none => throw "IndexError: list index out of range"
    | some currentVersion =>
      match pythonVersion with
      | .jstr pv =>
        if !pyStartsWith currentVersion pv then
          logEv (.warn "Python version mismatch")
        else pure ()
      | _ => throw "TypeError: startswith first arg must be str, not int"
  catch _ => do
    logEv (.errorLog "Python not found or not accessible")
    throw "Python is required but not found"
  try do
    let _ ← runCmdM w ["git", "--version"] true
    pure ()
  catch _ => do
    logEv (.errorLog "Git not found")
    throw "Git is required but not found"
  if env = "docker" then check_docker w
  else if env = "kubernetes" then check_kubernetes w
  else pure ()
  logEv (.info "Prerequisites check completed successfully")

/-- `create_backup` as invoked by the pipeline (deploy.py lines
188-225): the timestamped directory plus best-effort copies of the
database file, media tree and env file, any I/O failure escalating to
`DeploymentError`. -/
def create_backupM (w : World) (env : String) : DeployM String := do
  logEv (.info "Creating backup...")
  let name := backup_name env w.timestamp
  if w.backupFails then do
    logEv (.errorLog "Backup creation failed")
    throw "Failed to create backup"
  else do
    if w.dbExists then logEv (.info "Database backup created")
    if w.mediaExists then logEv (.info "Media files backup created")
    if w.envFileExists then logEv (.info "Environment file backup created")
    logEv (.info ("Backup created successfully at " ++ name))
    pure name

/-- Path of the virtual-environment interpreter on a POSIX system. -/
def venvPython : String := "venv/bin/python"

/-- Path of the virtual-environment pip on a POSIX system. -/
def venvPip : String := "venv/bin/pip"

/-- `setup_virtual_environment` (deploy.py lines 227-256). -/
def setup_virtual_environment (w : World) : DeployM String := do
  logEv (.info "Setting up virtual environment...")
  try do
    if !w.venvExists then do
      let _ ← runCmdM w ["python", "-m", "venv", "venv"] true
      logEv (.info "Virtual environment created")
    let _ ← runCmdM w [venvPython, "-m", "pip", "install", "--upgrade", "pip"] true
    if w.requirementsExists then do
      let _ ← runCmdM w [venvPip, "install", "-r", "requirements.txt"] true
      logEv (.info "Dependencies installed successfully")
    pure venvPython
  catch e => do
    logEv (.errorLog "Virtual environment setup failed")
    throw ("Failed to setup virtual environment: " ++ e)

/-- The pytest invocation of `run_tests` (deploy.py lines 265-272). -/
def pytestArgv (py : String) : List String :=
  [py, "-m", "pytest", "--cov=apps", "--cov-report=term-missing",
   "--cov-report=html", "--cov-fail-under=80", "-v"]

/-- `run_tests` (deploy.py lines 258-284): `check=False`, failures only
warn. -/
def run_tests (w : World) (py : String) : DeployM Unit := do
  logEv (.info "Running tests...")
  try do
    let r ← runCmdM w (pytestArgv py) false
    if r.returncode != 0 then do
      logEv (.warn "Some tests failed, but continuing deployment")
      logEv (.warn "Please review test results and fix issues")
    else
      logEv (.info "All tests passed successfully")
  catch _ => do
    logEv (.warn "Test execution failed")
    logEv (.warn "Continuing deployment without test validation")

/-- Python truthiness of a JSON value (`if not config.get(...)`). -/
def jTruthy : JValue → Bool
  | .jnull => false
  | .jbool b => b
  | .jnum n => n != 0
  | .jstr s => s != ""
  | .jarr l => !l.isEmpty
  | .jobj o => !o.isEmpty

/-- `config.get(key, default)` followed by Python truthiness. -/
def cfgFlag (econf : Obj) (key : String) (dflt : Bool) : Bool :=
  match objLookup econf key with
  | some v => jTruthy v
  | none => dflt

/-- `run_migrations` (deploy.py lines 286-305): gated by the
`migrations` flag, fatal on failure. -/
def run_migrations (w : World) (econf : Obj) (py : String) : DeployM Unit := do
  if !cfgFlag econf "migrations" true then
    logEv (.info "Migrations disabled for this environment")
  else do
    logEv (.info "Running database migrations...")
    try do
      let _ ← runCmdM w [py, "manage.py", "makemigrations"] true
      let _ ← runCmdM w [py, "manage.py", "migrate"] true
      logEv (.info "Migrations completed successfully")
    catch e => do
      logEv (.errorLog "Migration failed")
      throw ("Database migration failed: " ++ e)

/-- `collect_static_files` (deploy.py lines 307-325): gated by the
`static_files` flag, fatal on failure. -/
def collect_static_files (w : World) (econf : Obj) (py : String) : DeployM Unit := do
  if !cfgFlag econf "static_files" true then
    logEv (.info "Static file collection disabled for this environment")
  else do
    logEv (.info "Collecting static files...")
    try do
      let _ ← runCmdM w [py, "manage.py", "collectstatic", "--noinput"] true
      logEv (.info "Static files collected successfully")
    catch e => do
      logEv (.errorLog "Static file collection failed")
      throw ("Failed to collect static files: " ++ e)

/-- Path of the demo-data script. -/
def setupScriptPath : String := "scripts/setup_demo_data.py"

/-- `load_fixtures` (deploy.py lines 327-345): gated by the `fixtures`
flag, skipped silently when the script is absent, failures only warn. -/
def load_fixtures (w : World) (econf : Obj) (py : String) : DeployM Unit := do
  if !cfgFlag econf "fixtures" true then
    logEv (.info "Fixture loading disabled for this environment")
  else do
    logEv (.info "Loading initial data...")
    try do
      if w.setupScriptExists then do
        let _ ← runCmdM w [py, setupScriptPath] true
        logEv (.info "Demo data loaded successfully")
    catch _ => do
      logEv (.warn "Fixture loading failed")
      logEv (.warn "Continuing without demo data")

/-- `deploy_local` (deploy.py lines 347-367). -/
def deploy_local (w : World) (econf : Obj) : DeployM Unit := do
  logEv (.info "Starting local deployment...")
  try do
    let py ← setup_virtual_environment w
    run_tests w py
    run_migrations w econf py
    collect_static_files w econf py
    load_fixtures w econf py
    logEv (.info "Local deployment completed successfully!")
  catch e => do
    logEv (.errorLog "Local deployment failed")
    throw e

/-- `deploy_docker` (deploy.py lines 369-397): on any exception the
compose stack is torn down (`down`, `check=False`) before the error
propagates. -/
def deploy_docker (w : World) : DeployM Unit := do
  logEv (.info "Starting Docker deployment...")
  try do
    let _ ← runCmdM w ["docker-compose", "build"] true
    let _ ← runCmdM w ["docker-compose", "up", "-d"] true
    logEv (.info "Waiting for services to be ready...")
    let _ ← runCmdM w ["docker-compose", "exec", "-T", "web",
                       "python", "manage.py", "migrate"] true
    let _ ← runCmdM w ["docker-compose", "exec", "-T", "web",
                       "python", "scripts/setup_demo_data.py"] false
    logEv (.info "Docker deployment completed successfully!")
  catch e => do
    logEv (.errorLog "Docker deployment failed")
    let _ ← runCmdM w ["docker-compose", "down"] false
    throw e

/-- `config.get(key, default)` for a value substituted into an argv
list: a non-string value would make `subprocess.run` raise, modelled as
`none`. -/
def getStrD (econf : Obj) (k dflt : String) : Option String :=
  match objLookup econf k with
  | none => some dflt
  | some (.jstr s) => some s
  | some _ => none

/-- `deploy_kubernetes` (deploy.py lines 399-434). -/
def deploy_kubernetes (w : World) (cfg : List (String × Obj)) : DeployM Unit := do
  logEv (.info "Starting Kubernetes deployment...")
  let econf := configGet cfg "kubernetes"
  try do
    match getStrD econf "namespace" "anthony-store",
          getStrD econf "helm_chart" "./charts/store-chart" with
    | some ns, some chart => do
      let _ ← runCmdM w ["kubectl", "create", "namespace", ns] false
      let _ ← runCmdM w ["docker", "build", "-t", "anthony-store:latest", "."] true
      let _ ← runCmdM w ["helm", "upgrade", "--install", "anthony-store", chart,
                         "--namespace", ns, "--set", "image.tag=latest", "--wait"] true
      let r ← runCmdM w ["kubectl", "get", "services", "--namespace", ns] true
      logEv (.info "Kubernetes deployment completed successfully!")
      logEv (.info "Service information:")
      logEv (.echo r.stdout)
    | _, _ =>
      throw "Unexpected error: expected str, bytes or os.PathLike object"
  catch e => do
    logEv (.errorLog "Kubernetes deployment failed")
    throw e

/-- `deploy_github` (deploy.py lines 436-467). -/
def deploy_github (w : World) : DeployM Unit := do
  logEv (.info "Setting up GitHub Actions deployment...")
  try do
    let _ ← runCmdM w ["git", "status"] true
    if !w.workflowExists then do
      logEv (.errorLog "GitHub Actions workflow file not found")
      throw "GitHub Actions workflow file missing"
    let _ ← runCmdM w ["git", "add", "."] true
    let r ← runCmdM w ["git", "status", "--porcelain"] false
    if pyStrip r.stdout != "" then do
      let _ ← runCmdM w ["git", "commit", "-m", "Deploy Anthony Store updates"] true
      let _ ← runCmdM w ["git", "push", "origin", "main"] true
      logEv (.info "Changes pushed to GitHub successfully!")
    else
      logEv (.info "No changes to deploy")
  catch e => do
    logEv (.errorLog "GitHub deployment setup failed")
    throw e

/-- `health_check` as invoked by the pipeline; all failures only warn. -/
def health_checkM (w : World) (env : String) : DeployM Unit := do
  logEv (.info "Performing health check...")
  let obs := health_check env w.healthAttempt
  if (healthUrl env).isNone then
    logEv (.info "Health check not applicable for this environment")
  else if obs.passed then
    logEv (.info "Health check passed!")
  else
    logEv (.warn "Health check failed after 5 attempts")

/-- `cleanup_old_backups` as invoked by the pipeline: any failure is
caught and logged as a warning (deploy.py lines 541-555). -/
def cleanup_old_backupsM (w : World) : DeployM Unit :=
  if w.cleanupFails then logEv (.warn "Failed to cleanup old backups")
  else logEv (.info "Old backups cleaned up")

/-- The `try` body of `deploy` (deploy.py lines 514-534). -/
def deployBody (w : World) (env : String) (cfg : List (String × Obj)) : DeployM Unit := do
  logEv (.info ("Starting deployment to " ++ env ++ " environment"))
  check_prerequisites w env cfg
  let p ← create_backupM w env
  setBackupPath p
  if env = "local" then deploy_local w (configGet cfg env)
  else if env = "docker" then deploy_docker w
  else if env = "kubernetes" then deploy_kubernetes w cfg
  else if env = "github" then deploy_github w
  else throw ("Unknown environment: " ++ env)
  health_checkM w env
  logEv (.info ("Deployment to " ++ env ++ " completed successfully!"))
  cleanup_old_backupsM w

/-- Observable outcome of a whole run: process exit code, the log/event
trace, and the backup path bound during the run (if any). -/
structure RunOutcome where
  exitCode : Nat
  trace : List Ev
  backupPath : Option String
deriving DecidableEq, Repr

/-- `AnthonyStoreDeployer.deploy` plus the surrounding `main` handler
(deploy.py lines 510-539 and 580-589).  On an exception the handler logs
the error and then evaluates `f"Backup available at: {backup_path}"`;
when `create_backup` never completed, `backup_path` is unbound, so that
f-string raises `NameError`, which escapes `deploy` (skipping its
`sys.exit(1)`) and is caught by `main`'s handler, which logs it and
exits 1.  Either way the process exits nonzero on failure. -/
def deployRun (w : World) (env : String) : RunOutcome :=
  match deployBody w env
      (load_deployment_config w.configFile w.configWriteOk).config none with
  | (.ok _, δ, b) => ⟨0, δ, b⟩
  | (.error e, δ, b) =>
    match b with
    | some p =>
      ⟨1, δ ++ [.errorLog ("Deployment failed: " ++ e),
                .info ("Backup available at: " ++ p)], b⟩
    | none =>
      ⟨1, δ ++ [.errorLog ("Deployment failed: " ++ e),
                .errorLog "Deployment failed: NameError"], b⟩

/-- The `choices` list of the positional `environment` argument
(deploy.py lines 562-566). -/
def argEnvChoices : List String := ["local", "docker", "kubernetes", "github"]

/-- `main` (deploy.py lines 557-589): argparse rejects an environment
outside `choices` before the deployer exists (exit code 2); otherwise
the parsed `--skip-tests` / `--skip-backup` flags are never consulted —
`AnthonyStoreDeployer` is constructed from `args.environment` alone and
`deploy()` takes no arguments. -/
def mainRun (env : String) (skipTests skipBackup : Bool) (w : World) : RunOutcome :=
  if env ∈ argEnvChoices then deployRun w env
  else ⟨2, [], none⟩

/-- A nominal world: every command completes with exit code 0 and stdout
`"Python 3.11.4"`, no config file, venv present, no requirements file,
no demo-data script, workflow present, no injected failures, healthy
server. -/
def wNominal : World where
  cmdOutcome := fun _ => .completed 0 "Python 3.11.4" ""
  configFile := .absent
  configWriteOk := true
  venvExists := true
  requirementsExists := false
  setupScriptExists := false
  workflowExists := true
  dbExists := false
  mediaExists := false
  envFileExists := false
  backupFails := false
  cleanupFails := false
  timestamp := 1700000000
  healthAttempt := fun _ => .response 200

/-- A world in which no external command can be spawned at all. -/
def wFail : World :=
  { wNominal with cmdOutcome := fun _ => .spawnFailed "No such file or directory" }

/-! ## Helper lemmas -/

theorem healthLoop_fst_le (att : Nat → AttemptOutcome) :
    ∀ (fuel i : Nat), (healthLoop att i fuel).1 ≤ fuel := by
  intro fuel
  induction fuel with
  | zero => intro i; simp [healthLoop]
  | succ n ih =>
    intro i
    by_cases h : att i = .response 200
    · simp [healthLoop, h]
    · simpa [healthLoop, h] using ih (i + 1)

theorem healthLoop_all_fail (att : Nat → AttemptOutcome) :
    ∀ (fuel i : Nat), (∀ k, k < fuel → att (i + k) ≠ .response 200) →
      healthLoop att i fuel = (fuel, false) := by
  intro fuel
  induction fuel with
  | zero => intro i _; simp [healthLoop]
  | succ n ih =>
    intro i h
    have h0 : att i ≠ .response 200 := by
      have := h 0 (by omega)
      simpa using this
    have hrec : healthLoop att (i + 1) n = (n, false) := by
      apply ih
      intro k hk
      have := h (k + 1) (by omega)
      have harith : i + (k + 1) = i + 1 + k := by omega
      rwa [harith] at this
    simp [healthLoop, h0, hrec]

theorem healthLoop_first_hit (att : Nat → AttemptOutcome) :
    ∀ (fuel k i : Nat), k < fuel → att (i + k) = .response 200 →
      (∀ j, j < k → att (i + j) ≠ .response 200) →
      healthLoop att i fuel = (k + 1, true) := by
  intro fuel
  induction fuel with
  | zero => intro k i hk; omega
  | succ n ih =>
    intro k i hk hhit hmin
    match k with
    | 0 =>
      have h0 : att i = .response 200 := by simpa using hhit
      simp [healthLoop, h0]
    | j + 1 =>
      have h0 : att i ≠ .response 200 := by
        have := hmin 0 (by omega)
        simpa using this
      have hrec : healthLoop att (i + 1) n = (j + 1, true) := by
        apply ih j (i + 1) (by omega)
        · have harith : i + 1 + j = i + (j + 1) := by omega
          rwa [harith]
        · intro j' hj'
          have := hmin (j' + 1) (by omega)
          have harith : i + (j' + 1) = i + 1 + j' := by omega
          rwa [harith] at this
      simp [healthLoop, h0, hrec]

theorem mergeLoop_map_fst (user : JValue) :
    ∀ (rest : List (String × Obj)) (acc : List (String × Obj)),
      ((mergeLoop user acc rest).1).map Prod.fst
        = acc.map Prod.fst ++ rest.map Prod.fst := by
  intro rest
  induction rest with
  | nil => intro acc; simp [mergeLoop]
  | cons hd tl ih =>
    intro acc
    obtain ⟨env, r⟩ := hd
    rcases hm : jMember env user with e | b
    · simp [mergeLoop, hm]
    · cases b
      · simpa [mergeLoop, hm] using ih (acc ++ [(env, r)])
      · rcases hi : jIndex user env with e | x
        · simp [mergeLoop, hm, hi]
        · rcases hu : jUpdate r x with e | r'
          · simp [mergeLoop, hm, hi, hu]
          · simpa [mergeLoop, hm, hi, hu] using ih (acc ++ [(env, r')])

theorem mergeLoop_mem (user : JValue) :
    ∀ (rest : List (String × Obj)) (acc : List (String × Obj))
      (env : String) (r' : Obj),
      (env, r') ∈ (mergeLoop user acc rest).1 →
      (env, r') ∈ acc ∨
        ∃ r, (env, r) ∈ rest ∧ (r' = r ∨ ∃ fields, r' = objUpdate r fields) := by
  intro rest
  induction rest with
  | nil =>
    intro acc env r' h
    simp [mergeLoop] at h
    exact Or.inl h
  | cons hd tl ih =>
    intro acc env r' h
    obtain ⟨env₀, r₀⟩ := hd
    have direct : (env, r') ∈ acc ++ (env₀, r₀) :: tl →
        (env, r') ∈ acc ∨
          ∃ r, (env, r) ∈ (env₀, r₀) :: tl ∧
            (r' = r ∨ ∃ fields, r' = objUpdate r fields) := by
      intro hmem
      rcases List.mem_append.mp hmem with hacc | hrest
      · exact Or.inl hacc
      · exact Or.inr ⟨r', hrest, Or.inl rfl⟩
    have viaRec : ∀ r₁ : Obj,
        (r₁ = r₀ ∨ ∃ fields, r₁ = objUpdate r₀ fields) →
        (env, r') ∈ (mergeLoop user (acc ++ [(env₀, r₁)]) tl).1 →
        (env, r') ∈ acc ∨
          ∃ r, (env, r) ∈ (env₀, r₀) :: tl ∧
            (r' = r ∨ ∃ fields, r' = objUpdate r fields) := by
      intro r₁ hr₁ hmem
      rcases ih (acc ++ [(env₀, r₁)]) env r' hmem with hacc | ⟨r, hrmem, hrel⟩
      · rcases List.mem_append.mp hacc with h₁ | h₂
        · exact Or.inl h₁
        · simp at h₂
          refine Or.inr ⟨r₀, ?_, ?_⟩
          · rw [h₂.1]; exact List.mem_cons_self _ _
          · rw [h₂.2]
            rcases hr₁ with h₃ | ⟨fields, h₃⟩
            · exact Or.inl h₃
            · exact Or.inr ⟨fields, h₃⟩
      · exact Or.inr ⟨r, List.mem_cons_of_mem _ hrmem, hrel⟩
    rcases hm : jMember env₀ user with e | b
    · simp only [mergeLoop, hm] at h
      exact direct h
    · cases b
      · simp only [mergeLoop, hm] at h
        exact viaRec r₀ (Or.inl rfl) h
      · rcases hi : jIndex user env₀ with e | x
        · simp only [mergeLoop, hm, hi] at h
          exact direct h
        · rcases hu : jUpdate r₀ x with e | r₁
          · simp only [mergeLoop, hm, hi, hu] at h
            exact direct h
          · simp only [mergeLoop, hm, hi, hu] at h
            obtain ⟨fields, rfl⟩ : ∃ fields, r₁ = objUpdate r₀ fields := by
              cases x <;> simp [jUpdate] at hu
              exact ⟨_, hu.symm⟩
            exact viaRec _ (Or.inr ⟨fields, rfl⟩) h

theorem objLookup_objInsert_isSome (o : Obj) (k k' : String) (v : JValue)
    (h : (objLookup o k).isSome = true) :
    (objLookup (objInsert o k' v) k).isSome = true := by
  induction o with
  | nil => simp [objLookup] at h
  | cons hd tl ih =>
    obtain ⟨k₀, v₀⟩ := hd
    by_cases hk : k₀ = k'
    · subst hk
      by_cases hkk : k₀ = k
      · subst hkk
        simp [objInsert, objLookup]
      · simp [objInsert, objLookup, hkk] at h ⊢
        exact h
    · by_cases hkk : k₀ = k
      · subst hkk
        simp [objInsert, objLookup, hk]
      · simp [objInsert, objLookup, hk, hkk] at h ⊢
        exact ih h

theorem objLookup_objUpdate_isSome (fields : Obj) :
    ∀ (o : Obj) (k : String), (objLookup o k).isSome = true →
      (objLookup (objUpdate o fields) k).isSome = true := by
  induction fields with
  | nil => intro o k h; simpa [objUpdate] using h
  | cons hd tl ih =>
    intro o k h
    show (objLookup (objUpdate (objInsert o hd.1 hd.2) tl) k).isSome = true
    exact ih _ k (objLookup_objInsert_isSome o k hd.1 hd.2 h)

theorem assoc_keyUnique {β : Type} :
    ∀ (l : List (String × β)), (l.map Prod.fst).Nodup →
      ∀ (k : String) (a b : β), (k, a) ∈ l → (k, b) ∈ l → a = b := by
  intro l
  induction l with
  | nil => intro _ k a b ha; simp at ha
  | cons hd tl ih =>
    intro hnd k a b ha hb
    obtain ⟨k₀, v₀⟩ := hd
    simp at hnd
    rcases List.mem_cons.mp ha with h₁ | h₁ <;>
      rcases List.mem_cons.mp hb with h₂ | h₂
    · rw [Prod.mk.injEq] at h₁ h₂
      rw [h₁.2, h₂.2]
    · rw [Prod.mk.injEq] at h₁
      exact absurd (h₁.1 ▸ List.mem_map_of_mem Prod.fst h₂) (by simpa using hnd.1)
    · rw [Prod.mk.injEq] at h₂
      exact absurd (h₂.1 ▸ List.mem_map_of_mem Prod.fst h₁) (by simpa using hnd.1)
    · exact ih hnd.2 k a b h₁ h₂

theorem decimalDigitsAux_eq :
    ∀ n : Nat, ∀ fuel : Nat, n < fuel → decimalDigitsAux fuel n = decimalDigits n := by
  intro n
  induction n using Nat.strong_induction_on with
  | _ n ih =>
    intro fuel hf
    match fuel, hf with
    | f + 1, hf =>
      by_cases h : n < 10
      · simp [decimalDigitsAux, decimalDigits, h]
      · have hlt : n / 10 < n := Nat.div_lt_self (by omega) (by omega)
        have h1 : decimalDigitsAux f (n / 10) = decimalDigits (n / 10) :=
          ih (n / 10) hlt f (by omega)
        have h2 : decimalDigitsAux n (n / 10) = decimalDigits (n / 10) :=
          ih (n / 10) hlt n hlt
        have hright : decimalDigits n
            = decimalDigitsAux n (n / 10) ++ [Nat.digitChar (n % 10)] := by
          simp [decimalDigits, decimalDigitsAux, h]
        rw [hright, h2]
        simp [decimalDigitsAux, h, h1]

theorem decimalDigits_lt (n : Nat) (h : n < 10) :
    decimalDigits n = [Nat.digitChar n] := by
  simp [decimalDigits, decimalDigitsAux, h]

theorem decimalDigits_ge (n : Nat) (h : ¬n < 10) :
    decimalDigits n = decimalDigits (n / 10) ++ [Nat.digitChar (n % 10)] := by
  have hlt : n / 10 < n := Nat.div_lt_self (by omega) (by omega)
  have h1 : decimalDigitsAux n (n / 10) = decimalDigits (n / 10) :=
    decimalDigitsAux_eq (n / 10) n hlt
  calc decimalDigits n
      = decimalDigitsAux n (n / 10) ++ [Nat.digitChar (n % 10)] := by
        simp [decimalDigits, decimalDigitsAux, h]
    _ = decimalDigits (n / 10) ++ [Nat.digitChar (n % 10)] := by rw [h1]

theorem digitChar_inj :
    ∀ a, a < 10 → ∀ b, b < 10 → Nat.digitChar a = Nat.digitChar b → a = b := by
  decide

theorem decimalDigits_length_pos (n : Nat) : 0 < (decimalDigits n).length := by
  by_cases h : n < 10
  · simp [decimalDigits_lt n h]
  · simp [decimalDigits_ge n h]

theorem decimalDigits_injective : Function.Injective decimalDigits := by
  intro a
  induction a using Nat.strong_induction_on with
  | _ a ih =>
    intro b h
    by_cases ha : a < 10 <;> by_cases hb : b < 10
    · rw [decimalDigits_lt a ha, decimalDigits_lt b hb] at h
      exact digitChar_inj a ha b hb (List.singleton_injective h)
    · rw [decimalDigits_lt a ha, decimalDigits_ge b hb] at h
      have hlen := congrArg List.length h
      simp only [List.length_append, List.length_singleton] at hlen
      have hpos := decimalDigits_length_pos (b / 10)
      omega
    · rw [decimalDigits_ge a ha, decimalDigits_lt b hb] at h
      have hlen := congrArg List.length h
      simp only [List.length_append, List.length_singleton] at hlen
      have hpos := decimalDigits_length_pos (a / 10)
      omega
    · rw [decimalDigits_ge a ha, decimalDigits_ge b hb] at h
      have hrev := congrArg List.reverse h
      simp at hrev
      have hmod : a % 10 = b % 10 :=
        digitChar_inj _ (Nat.mod_lt a (by omega)) _ (Nat.mod_lt b (by omega)) hrev.1
      have hdiveq : decimalDigits (a / 10) = decimalDigits (b / 10) := hrev.2
      have hdiv : a / 10 = b / 10 :=
        ih (a / 10) (Nat.div_lt_self (by omega) (by omega)) hdiveq
      omega

theorem backup_name_inj (env : String) (t₁ t₂ : Nat) :
    backup_name env t₁ = backup_name env t₂ ↔ t₁ = t₂ := by
  constructor
  · intro h
    apply decimalDigits_injective
    have hd := congrArg String.data h
    simp only [backup_name, String.data_append] at hd
    simpa using hd
  · rintro rfl
    rfl

theorem DeployM.run_bind {α β : Type} (x : DeployM α) (f : α → DeployM β)
    (b : Option String) :
    (x >>= f) b =
      match x b with
      | (.ok a, δ₁, b₁) =>
        match f a b₁ with
        | (r, δ₂, b₂) => (r, δ₁ ++ δ₂, b₂)
      | (.error e, δ₁, b₁) => (.error e, δ₁, b₁) := rfl

theorem DeployM.run_pure {α : Type} (a : α) (b : Option String) :
    (pure a : DeployM α) b = (.ok a, [], b) := rfl

theorem DeployM.run_throw {α : Type} (e : String) (b : Option String) :
    (throw e : DeployM α) b = (.error e, [], b) := rfl

theorem DeployM.run_tryCatch {α : Type} (x : DeployM α) (h : String → DeployM α)
    (b : Option String) :
    (tryCatch x h) b =
      match x b with
      | (.ok a, δ, b') => (.ok a, δ, b')
      | (.error e, δ, b') =>
        match h e b' with
        | (r, δ₂, b₂) => (r, δ ++ δ₂, b₂) := rfl

theorem DeployM.run_logEv (e : Ev) (b : Option String) :
    logEv e b = (.ok (), [e], b) := rfl

/-- The computation always ends in a raised exception, whatever the
`backup_path` binding. -/
def NeverOk {α : Type} (m : DeployM α) : Prop :=
  ∀ b : Option String, ∃ e, (m b).1 = .error e

/-- Every process-spawn event in the computation's trace delta uses an
argv from `S`. -/
def CmdsSub {α : Type} (m : DeployM α) (S : List (List String)) : Prop :=
  ∀ (b : Option String) (a : List String), Ev.cmd a ∈ (m b).2.1 → a ∈ S

/-- The computation's trace delta always contains a spawn of `argv`. -/
def EmitsCmd {α : Type} (m : DeployM α) (argv : List String) : Prop :=
  ∀ b : Option String, Ev.cmd argv ∈ (m b).2.1

theorem neverOk_throw {α : Type} (e : String) : NeverOk (throw e : DeployM α) :=
  fun _ => ⟨e, rfl⟩

theorem neverOk_bind {α β : Type} {x : DeployM α} {f : α → DeployM β}
    (hf : ∀ a, NeverOk (f a)) : NeverOk (x >>= f) := by
  intro b
  rcases hx : x b with ⟨res, δ₁, b₁⟩
  cases res with
  | ok a =>
    rcases hfa : f a b₁ with ⟨r₂, δ₂, b₂⟩
    obtain ⟨e, he⟩ := hf a b₁
    rw [hfa] at he
    simp at he
    refine ⟨e, ?_⟩
    rw [DeployM.run_bind, hx]
    simp [hfa, he]
  | error e =>
    refine ⟨e, ?_⟩
    rw [DeployM.run_bind, hx]

theorem cmdsSub_of_bind {α β : Type} {x : DeployM α} {f : α → DeployM β}
    {S : List (List String)} (hx : CmdsSub x S) (hf : ∀ a, CmdsSub (f a) S) :
    CmdsSub (x >>= f) S := by
  intro b a ha
  rcases hx' : x b with ⟨res, δ₁, b₁⟩
  cases res with
  | ok v =>
    rcases hf' : f v b₁ with ⟨r₂, δ₂, b₂⟩
    rw [DeployM.run_bind, hx'] at ha
    simp [hf'] at ha
    rcases ha with h | h
    · exact hx b a (by rw [hx']; exact h)
    · exact hf v b₁ a (by rw [hf']; exact h)
  | error e =>
    rw [DeployM.run_bind, hx'] at ha
    simp at ha
    exact hx b a (by rw [hx']; exact ha)

theorem cmdsSub_of_tryCatch {α : Type} {x : DeployM α} {h : String → DeployM α}
    {S : List (List String)} (hx : CmdsSub x S) (hh : ∀ e, CmdsSub (h e) S) :
    CmdsSub (tryCatch x h) S := by
  intro b a ha
  rcases hx' : x b with ⟨res, δ₁, b₁⟩
  cases res with
  | ok v =>
    rw [DeployM.run_tryCatch, hx'] at ha
    simp at ha
    exact hx b a (by rw [hx']; exact ha)
  | error e =>
    rcases hh' : h e b₁ with ⟨r₂, δ₂, b₂⟩
    rw [DeployM.run_tryCatch, hx'] at ha
    simp [hh'] at ha
    rcases ha with h' | h'
    · exact hx b a (by rw [hx']; exact h')
    · exact hh e b₁ a (by rw [hh']; exact h')

theorem cmdsSub_pure {α : Type} (a : α) (S : List (List String)) :
    CmdsSub (pure a : DeployM α) S := by
  intro b c hc
  rw [DeployM.run_pure] at hc
  simp at hc

theorem cmdsSub_throw {α : Type} (e : String) (S : List (List String)) :
    CmdsSub (throw e : DeployM α) S := by
  intro b c hc
  rw [DeployM.run_throw] at hc
  simp at hc

theorem cmdsSub_logEv (e : Ev) (S : List (List String)) (hne : ∀ a, e ≠ Ev.cmd a) :
    CmdsSub (logEv e) S := by
  intro b c hc
  rw [DeployM.run_logEv] at hc
  simp at hc
  exact absurd hc.symm (hne c)

theorem cmdsSub_setBackupPath (p : String) (S : List (List String)) :
    CmdsSub (setBackupPath p) S := by
  intro b c hc
  simp [setBackupPath] at hc

theorem cmdsSub_logEv_of (e : Ev) (S : List (List String))
    (h : ∀ a, e = Ev.cmd a → a ∈ S) : CmdsSub (logEv e) S := by
  intro b c hc
  rw [DeployM.run_logEv] at hc
  simp at hc
  exact h c hc.symm

theorem emitsCmd_logCmd (argv : List String) : EmitsCmd (logEv (.cmd argv)) argv := by
  intro b
  rw [DeployM.run_logEv]
  simp

theorem cmdsSub_runCmdM {w : World} {argv : List String} {check : Bool}
    {S : List (List String)} (h : argv ∈ S) : CmdsSub (runCmdM w argv check) S := by
  unfold runCmdM
  refine cmdsSub_of_bind (cmdsSub_logEv_of _ _ (by intro a h'; cases h')) (fun _ => ?_)
  refine cmdsSub_of_bind (cmdsSub_logEv_of _ _ ?_) (fun _ => ?_)
  · intro a h'
    cases h'
    exact h
  · rcases hr : run_command check (w.cmdOutcome argv) with m | r
    · simp only [hr]
      exact cmdsSub_throw _ _
    · simp only [hr]
      by_cases hs : (r.stdout != "") = true
      · simp only [hs, if_true]
        exact cmdsSub_of_bind (cmdsSub_logEv_of _ _ (by intro a h'; cases h'))
          (fun _ => cmdsSub_pure _ _)
      · simp only [hs, if_false, Bool.false_eq_true]
        exact cmdsSub_of_bind (cmdsSub_pure _ _) (fun _ => cmdsSub_pure _ _)

theorem emitsCmd_bind_left {α β : Type} {x : DeployM α} {f : α → DeployM β}
    {argv : List String} (hx : EmitsCmd x argv) : EmitsCmd (x >>= f) argv := by
  intro b
  rcases hx' : x b with ⟨res, δ₁, b₁⟩
  have hmem : Ev.cmd argv ∈ δ₁ := by
    have := hx b
    rw [hx'] at this
    exact this
  cases res with
  | ok v =>
    rcases hf' : f v b₁ with ⟨r₂, δ₂, b₂⟩
    rw [DeployM.run_bind, hx']
    simp [hf', hmem]
  | error e =>
    rw [DeployM.run_bind, hx']
    simpa using hmem

theorem emitsCmd_tryCatch_left {α : Type} {x : DeployM α} {h : String → DeployM α}
    {argv : List String} (hx : EmitsCmd x argv) : EmitsCmd (tryCatch x h) argv := by
  intro b
  rcases hx' : x b with ⟨res, δ₁, b₁⟩
  have hmem : Ev.cmd argv ∈ δ₁ := by
    have := hx b
    rw [hx'] at this
    exact this
  cases res with
  | ok v =>
    rw [DeployM.run_tryCatch, hx']
    simpa using hmem
  | error e =>
    rcases hh' : h e b₁ with ⟨r₂, δ₂, b₂⟩
    rw [DeployM.run_tryCatch, hx']
    simp [hh', hmem]

theorem emitsCmd_bind_right {α β : Type} {x : DeployM α} {f : α → DeployM β}
    {argv : List String}
    (hx : ∀ b, ∃ a δ, x b = (.ok a, δ, b)) (hf : ∀ a, EmitsCmd (f a) argv) :
    EmitsCmd (x >>= f) argv := by
  intro b
  obtain ⟨a, δ, hab⟩ := hx b
  rcases hf' : f a b with ⟨r₂, δ₂, b₂⟩
  have hmem : Ev.cmd argv ∈ δ₂ := by
    have := hf a b
    rw [hf'] at this
    exact this
  rw [DeployM.run_bind, hab]
  simp [hf', hmem]

theorem emitsCmd_runCmdM (w : World) (argv : List String) (check : Bool) :
    EmitsCmd (runCmdM w argv check) argv := by
  unfold runCmdM
  refine emitsCmd_bind_right (fun b => ⟨(), _, rfl⟩) (fun _ => ?_)
  exact emitsCmd_bind_left (emitsCmd_logCmd argv)

theorem neverOk_bind_left {α β : Type} {x : DeployM α} {f : α → DeployM β}
    (hx : NeverOk x) : NeverOk (x >>= f) := by
  intro b
  obtain ⟨e, he⟩ := hx b
  rcases hx' : x b with ⟨res, δ, b'⟩
  rw [hx'] at he
  simp at he
  subst he
  refine ⟨e, ?_⟩
  rw [DeployM.run_bind, hx']

theorem cmdsSub_ite {α : Type} (c : Prop) [Decidable c] {x y : DeployM α}
    {S : List (List String)} (hx : CmdsSub x S) (hy : CmdsSub y S) :
    CmdsSub (if c then x else y) S := by
  by_cases h : c
  · rwa [if_pos h]
  · rwa [if_neg h]

theorem cmdsSub_info (s : String) (S : List (List String)) :
    CmdsSub (logEv (.info s)) S :=
  cmdsSub_logEv_of _ _ (by intro a h; cases h)

theorem cmdsSub_warn (s : String) (S : List (List String)) :
    CmdsSub (logEv (.warn s)) S :=
  cmdsSub_logEv_of _ _ (by intro a h; cases h)

theorem cmdsSub_errLog (s : String) (S : List (List String)) :
    CmdsSub (logEv (.errorLog s)) S :=
  cmdsSub_logEv_of _ _ (by intro a h; cases h)

theorem cmdsSub_check_prerequisites (w : World) (cfg : List (String × Obj))
    (env : String) (h1 : env ≠ "docker") (h2 : env ≠ "kubernetes") :
    CmdsSub (check_prerequisites w env cfg)
      [["python", "--version"], ["git", "--version"]] := by
  unfold check_prerequisites
  refine cmdsSub_of_bind (cmdsSub_info _ _) (fun _ => ?_)
  refine cmdsSub_of_bind (cmdsSub_of_tryCatch ?_ ?_) (fun _ => ?_)
  · refine cmdsSub_of_bind (cmdsSub_runCmdM (by simp)) (fun r => ?_)
    rcases hx : (pySplitWs r.stdout)[1]? with _ | cv
    · simp only [hx]
      exact cmdsSub_throw _ _
    · simp only [hx]
      rcases hpv : (objLookup (configGet cfg env) "python_version").getD (.jstr "3.11")
        with _ | _ | _ | pv | _ | _ <;> simp only [hpv]
      · exact cmdsSub_throw _ _
      · exact cmdsSub_throw _ _
      · exact cmdsSub_throw _ _
      · exact cmdsSub_ite _ (cmdsSub_warn _ _) (cmdsSub_pure _ _)
      · exact cmdsSub_throw _ _
      · exact cmdsSub_throw _ _
  · exact fun e => cmdsSub_of_bind (cmdsSub_errLog _ _) (fun _ => cmdsSub_throw _ _)
  · refine cmdsSub_of_bind (cmdsSub_of_tryCatch ?_ ?_) (fun _ => ?_)
    · exact cmdsSub_of_bind (cmdsSub_runCmdM (by simp)) (fun _ => cmdsSub_pure _ _)
    · exact fun e => cmdsSub_of_bind (cmdsSub_errLog _ _) (fun _ => cmdsSub_throw _ _)
    · rw [if_neg h1, if_neg h2]
      exact cmdsSub_of_bind (cmdsSub_pure _ _) (fun _ => cmdsSub_info _ _)

theorem emitsCmd_check_prerequisites (w : World) (env : String)
    (cfg : List (String × Obj)) :
    EmitsCmd (check_prerequisites w env cfg) ["python", "--version"] := by
  unfold check_prerequisites
  refine emitsCmd_bind_right (fun b => ⟨(), _, rfl⟩) (fun _ => ?_)
  refine emitsCmd_bind_left ?_
  refine emitsCmd_tryCatch_left ?_
  exact emitsCmd_bind_left (emitsCmd_runCmdM w _ true)

theorem cmdsSub_create_backupM (w : World) (env : String) (S : List (List String)) :
    CmdsSub (create_backupM w env) S := by
  unfold create_backupM
  refine cmdsSub_of_bind (cmdsSub_info _ _) (fun _ => ?_)
  refine cmdsSub_ite _ ?_ ?_
  · exact cmdsSub_of_bind (cmdsSub_errLog _ _) (fun _ => cmdsSub_throw _ _)
  · refine cmdsSub_ite _
      (cmdsSub_of_bind (cmdsSub_info _ _) (fun _ => ?_))
      (cmdsSub_of_bind (cmdsSub_pure _ _) (fun _ => ?_)) <;>
    refine cmdsSub_ite _
      (cmdsSub_of_bind (cmdsSub_info _ _) (fun _ => ?_))
      (cmdsSub_of_bind (cmdsSub_pure _ _) (fun _ => ?_)) <;>
    refine cmdsSub_ite _
      (cmdsSub_of_bind (cmdsSub_info _ _) (fun _ => ?_))
      (cmdsSub_of_bind (cmdsSub_pure _ _) (fun _ => ?_)) <;>
    exact cmdsSub_of_bind (cmdsSub_info _ _) (fun _ => cmdsSub_pure _ _)

theorem cmdsSub_health_checkM (w : World) (env : String) (S : List (List String)) :
    CmdsSub (health_checkM w env) S := by
  unfold health_checkM
  refine cmdsSub_of_bind (cmdsSub_info _ _) (fun _ => ?_)
  refine cmdsSub_ite _ (cmdsSub_info _ _) ?_
  exact cmdsSub_ite _ (cmdsSub_info _ _) (cmdsSub_warn _ _)

theorem cmdsSub_cleanupM (w : World) (S : List (List String)) :
    CmdsSub (cleanup_old_backupsM w) S := by
  unfold cleanup_old_backupsM
  exact cmdsSub_ite _ (cmdsSub_warn _ _) (cmdsSub_info _ _)

theorem neverOk_deployBody_unknown (w : World) (cfg : List (String × Obj))
    (env : String) (hl : env ≠ "local") (hd : env ≠ "docker")
    (hk : env ≠ "kubernetes") (hg : env ≠ "github") :
    NeverOk (deployBody w env cfg) := by
  unfold deployBody
  refine neverOk_bind (fun _ => ?_)
  refine neverOk_bind (fun _ => ?_)
  refine neverOk_bind (fun p => ?_)
  refine neverOk_bind (fun _ => ?_)
  rw [if_neg hl, if_neg hd, if_neg hk, if_neg hg]
  exact neverOk_bind_left (neverOk_throw _)

theorem cmdsSub_deployBody_unknown (w : World) (cfg : List (String × Obj))
    (env : String) (hl : env ≠ "local") (hd : env ≠ "docker")
    (hk : env ≠ "kubernetes") (hg : env ≠ "github") :
    CmdsSub (deployBody w env cfg)
      [["python", "--version"], ["git", "--version"]] := by
  unfold deployBody
  refine cmdsSub_of_bind (cmdsSub_info _ _) (fun _ => ?_)
  refine cmdsSub_of_bind (cmdsSub_check_prerequisites w cfg env hd hk) (fun _ => ?_)
  refine cmdsSub_of_bind (cmdsSub_create_backupM w env _) (fun p => ?_)
  refine cmdsSub_of_bind (cmdsSub_setBackupPath _ _) (fun _ => ?_)
  rw [if_neg hl, if_neg hd, if_neg hk, if_neg hg]
  refine cmdsSub_of_bind (cmdsSub_throw _ _) (fun _ => ?_)
  refine cmdsSub_of_bind (cmdsSub_health_checkM w env _) (fun _ => ?_)
  exact cmdsSub_of_bind (cmdsSub_info _ _) (fun _ => cmdsSub_cleanupM w _)

theorem emitsCmd_deployBody (w : World) (cfg : List (String × Obj)) (env : String) :
    EmitsCmd (deployBody w env cfg) ["python", "--version"] := by
  unfold deployBody
  refine emitsCmd_bind_right (fun b => ⟨(), _, rfl⟩) (fun _ => ?_)
  exact emitsCmd_bind_left (emitsCmd_check_prerequisites w env cfg)

theorem deployRun_error_some (w : World) (env : String) (e : String) (δ : List Ev)
    (p : String)
    (hb : deployBody w env
        (load_deployment_config w.configFile w.configWriteOk).config none
      = (.error e, δ, some p)) :
    deployRun w env =
      ⟨1, δ ++ [.errorLog ("Deployment failed: " ++ e),
                .info ("Backup available at: " ++ p)], some p⟩ := by
  unfold deployRun
  rw [hb]

theorem deployRun_error_none (w : World) (env : String) (e : String) (δ : List Ev)
    (hb : deployBody w env
        (load_deployment_config w.configFile w.configWriteOk).config none
      = (.error e, δ, none)) :
    deployRun w env =
      ⟨1, δ ++ [.errorLog ("Deployment failed: " ++ e),
                .errorLog "Deployment failed: NameError"], none⟩ := by
  unfold deployRun
  rw [hb]

theorem ctimeLe_trans :
    ∀ a b c : BackupEntry, ctimeLe a b = true → ctimeLe b c = true → ctimeLe a c = true := by
  intro a b c hab hbc
  simp [ctimeLe] at hab hbc ⊢
  omega

theorem ctimeLe_total : ∀ a b : BackupEntry, (ctimeLe a b || ctimeLe b a) = true := by
  intro a b
  simp [ctimeLe]
  omega

/-! ## Claims -/

/-- C5: for every command whose process exits with a nonzero code,
`run_command` with `check=true` raises DeploymentError, and with
`check=false` returns the `CommandResult` carrying that exit code
without raising. -/
theorem claim5_run_command_check (code : Int) (out err : String) (h : code ≠ 0) :
    run_command true (.completed code out err) = .error "Command failed"
    ∧ run_command false (.completed code out err) =
        .ok { returncode := code, stdout := out, stderr := err } := by
  constructor <;> simp [run_command, h]

/-- Witness for C5 at exit code 1. -/
theorem claim5_run_command_check_witness :
    run_command true (.completed 1 "" "") = .error "Command failed"
    ∧ run_command false (.completed 1 "" "") =
        .ok { returncode := 1, stdout := "", stderr := "" } :=
  claim5_run_command_check 1 "" "" (by decide)

/-- C1: the parsed `--skip-tests` / `--skip-backup` flags are never
consulted: `mainRun` is literally independent of them, and a local run
invoked with both flags set still creates the backup and still runs the
pytest step.  (This contradicts the declared purpose of the flags —
"Skip running tests" / "Skip creating backup" — so the claim is right
and the code is wrong.) -/
theorem claim1_skip_flags_ignored :
    (∀ env s b s' b' w, mainRun env s b w = mainRun env s' b' w)
    ∧ (mainRun "local" true true wNominal).backupPath
        = some (backup_name "local" 1700000000)
    ∧ Ev.cmd (pytestArgv venvPython) ∈ (mainRun "local" true true wNominal).trace
    ∧ (mainRun "local" true true wNominal).exitCode = 0 := by
  refine ⟨fun env s b s' b' w => rfl, by decide, by decide, by decide⟩

/-- C2, counterexample: the claim says deploying to an environment
outside the four known ones raises DeploymentError before any external
command is invoked.  Running `deploy` for environment `"staging"` (every
command succeeding) does fail with the unknown-environment
DeploymentError and exit 1 — but only after `python --version` and
`git --version` have been spawned and the backup has been created. -/
theorem claim2_commands_before_unknown_env_error :
    (deployRun wNominal "staging").exitCode = 1
    ∧ Ev.errorLog "Deployment failed: Unknown environment: staging"
        ∈ (deployRun wNominal "staging").trace
    ∧ Ev.cmd ["python", "--version"] ∈ (deployRun wNominal "staging").trace
    ∧ Ev.cmd ["git", "--version"] ∈ (deployRun wNominal "staging").trace := by
  refine ⟨by decide, by decide, by decide, by decide⟩

/-- C2, amended: for every environment string outside
{local, docker, kubernetes, github} and for every world, `deploy` always
fails (DeploymentError, process exit 1) and never reaches any
environment-specific deployment step — every command it may spawn is one
of the two prerequisite checks (`python --version`, `git --version`) —
but it does spawn `python --version` before the failure, so the error is
not raised before any external command. -/
theorem claim2_unknown_env_fails_after_prereqs (env : String) (w : World)
    (henv : env ∉ argEnvChoices) :
    (deployRun w env).exitCode = 1
    ∧ Ev.cmd ["python", "--version"] ∈ (deployRun w env).trace
    ∧ (∀ argv, Ev.cmd argv ∈ (deployRun w env).trace →
        argv = ["python", "--version"] ∨ argv = ["git", "--version"]) := by
  simp only [argEnvChoices, List.mem_cons, List.mem_singleton, not_or,
    List.not_mem_nil] at henv
  obtain ⟨hl, hd, hk, hg, -⟩ := henv
  have hno : NeverOk (deployBody w env
      (load_deployment_config w.configFile w.configWriteOk).config) :=
    neverOk_deployBody_unknown w _ env hl hd hk hg
  have hcmds := cmdsSub_deployBody_unknown w
    (load_deployment_config w.configFile w.configWriteOk).config env hl hd hk hg
  have hpy := emitsCmd_deployBody w
    (load_deployment_config w.configFile w.configWriteOk).config env
  obtain ⟨e, he⟩ := hno none
  rcases hb : deployBody w env
      (load_deployment_config w.configFile w.configWriteOk).config none
    with ⟨res, δ, bp⟩
  rw [hb] at he
  simp at he
  subst he
  have hmemδ : Ev.cmd ["python", "--version"] ∈ δ := by
    have := hpy none
    rw [hb] at this
    exact this
  have hsubδ : ∀ argv, Ev.cmd argv ∈ δ →
      argv = ["python", "--version"] ∨ argv = ["git", "--version"] := by
    intro argv hargv
    have := hcmds none argv (by rw [hb]; exact hargv)
    simpa using this
  cases bp with
  | some p =>
    have hrun := deployRun_error_some w env e δ p hb
    rw [hrun]
    refine ⟨rfl, by simp [hmemδ], ?_⟩
    intro argv hargv
    rcases List.mem_append.mp hargv with h | h
    · exact hsubδ argv h
    · simp at h
  | none =>
    have hrun := deployRun_error_none w env e δ hb
    rw [hrun]
    refine ⟨rfl, by simp [hmemδ], ?_⟩
    intro argv hargv
    rcases List.mem_append.mp hargv with h | h
    · exact hsubδ argv h
    · simp at h

/-- Witness for the amended C2, at environment `"staging"` in the
nominal world. -/
theorem claim2_unknown_env_witness :
    (deployRun wNominal "staging").exitCode = 1
    ∧ Ev.cmd ["python", "--version"] ∈ (deployRun wNominal "staging").trace := by
  have h := claim2_unknown_env_fails_after_prereqs "staging" wNominal (by decide)
  exact ⟨h.1, h.2.1⟩

/-- C4: whenever the pipeline body raises an escalated error, the
orchestrator logs `Deployment failed: <error>`, logs the backup path
when a backup had been bound, the process exits nonzero, and no step is
retried — after the failure only log lines are appended, never another
process spawn. -/
theorem claim4_failure_logged_nonzero_exit (w : World) (env : String) (e : String)
    (hfail : (deployBody w env
        (load_deployment_config w.configFile w.configWriteOk).config none).1
      = Except.error e) :
    (deployRun w env).exitCode = 1
    ∧ Ev.errorLog ("Deployment failed: " ++ e) ∈ (deployRun w env).trace
    ∧ (∀ p, (deployBody w env
          (load_deployment_config w.configFile w.configWriteOk).config none).2.2
        = some p →
        Ev.info ("Backup available at: " ++ p) ∈ (deployRun w env).trace)
    ∧ ∃ logs, (deployRun w env).trace
        = (deployBody w env
            (load_deployment_config w.configFile w.configWriteOk).config none).2.1
          ++ logs
        ∧ ∀ ev ∈ logs, ∀ argv, ev ≠ Ev.cmd argv := by
  rcases hb : deployBody w env
      (load_deployment_config w.configFile w.configWriteOk).config none
    with ⟨res, δ, bp⟩
  rw [hb] at hfail
  simp at hfail
  subst hfail
  cases bp with
  | some p =>
    have hrun := deployRun_error_some w env e δ p hb
    rw [hrun]
    refine ⟨rfl, by simp, ?_, ?_⟩
    · intro p' hp'
      simp at hp'
      subst hp'
      simp
    · exact ⟨_, rfl, by intro ev hev argv; simp at hev; rcases hev with h | h <;>
        simp [h]⟩
  | none =>
    have hrun := deployRun_error_none w env e δ hb
    rw [hrun]
    refine ⟨rfl, by simp, ?_, ?_⟩
    · intro p' hp'
      simp at hp'
    · exact ⟨_, rfl, by intro ev hev argv; simp at hev; rcases hev with h | h <;>
        simp [h]⟩

/-- Witness for C4: in a world where no executable can be spawned, the
prerequisite check escalates, the error is logged and the run exits 1. -/
theorem claim4_failure_witness :
    (deployRun wFail "local").exitCode = 1
    ∧ Ev.errorLog ("Deployment failed: " ++ "Python is required but not found")
        ∈ (deployRun wFail "local").trace := by
  have h := claim4_failure_logged_nonzero_exit wFail "local"
    "Python is required but not found" (by rfl)
  exact ⟨h.1, h.2.1⟩

/-- C3, counterexample: the claim says `health_check` returns as soon as
an attempt yields a 2xx response, making no further attempts.  Against a
server that always answers 204 (a 2xx status), the code — which tests
`status_code == 200` exactly — exhausts all 5 attempts and logs the
failure warning instead of succeeding on the first attempt. -/
theorem claim3_2xx_not_accepted :
    health_check "local" (fun _ => .response 204) =
      { attempts := 5, passed := false, warned := true } := rfl

/-- C3, amended: for the local and docker environments `health_check`
makes at most 5 GET attempts; it returns (without raising — the model is
total) as soon as an attempt yields status code exactly 200, counting
that attempt; if none of the 5 attempts yields 200 it makes exactly 5
attempts and logs a warning, still without raising. -/
theorem claim3_health_retry (env : String) (att : Nat → AttemptOutcome)
    (henv : env = "local" ∨ env = "docker") :
    (health_check env att).attempts ≤ 5
    ∧ ((∀ k, k < 5 → att k ≠ .response 200) →
        health_check env att = { attempts := 5, passed := false, warned := true })
    ∧ (∀ k, k < 5 → att k = .response 200 →
        (∀ j, j < k → att j ≠ .response 200) →
        health_check env att = { attempts := k + 1, passed := true, warned := false }) := by
  have hurl : healthUrl env = some "http://localhost:8000/health/" := by
    rcases henv with rfl | rfl <;> rfl
  refine ⟨?_, ?_, ?_⟩
  · simp only [health_check, hurl]
    exact healthLoop_fst_le att 5 0
  · intro hfail
    have h5 : healthLoop att 0 5 = (5, false) := by
      apply healthLoop_all_fail
      intro k hk
      simpa using hfail k hk
    simp [health_check, hurl, h5]
  · intro k hk hhit hmin
    have hA : healthLoop att 0 5 = (k + 1, true) := by
      apply healthLoop_first_hit att 5 k 0 hk
      · simpa using hhit
      · intro j hj
        simpa using hmin j hj
    simp [health_check, hurl, hA]

/-- Witness for C3: a server that answers 200 on the 3rd attempt makes
the probe succeed after exactly 3 attempts; it never reaches attempts 4
and 5. -/
theorem claim3_health_retry_witness :
    health_check "local" (fun n => if n = 2 then .response 200 else .requestFailed) =
      { attempts := 3, passed := true, warned := false } :=
  (claim3_health_retry "local"
    (fun n => if n = 2 then .response 200 else .requestFailed)
    (Or.inl rfl)).2.2 2 (by decide) (by decide) (by decide)

/-- The config file used in the C6 counterexample: valid JSON that
overrides `local.python_version` with a number. -/
def c6File : ConfigFile :=
  .parsed (.jobj [("local", .jobj [("python_version", .jnum 311)])])

/-- C6, counterexample: the claim says every environment record of the
loaded config satisfies the default schema for EVERY state of the config
file, including valid JSON with any subset of keys.  A file overriding
`local.python_version` with the number 311 is merged verbatim, so the
loaded `local` record carries a non-string `python_version` and violates
the schema. -/
theorem claim6_schema_violation :
    specSchemaOk (configGet (load_deployment_config c6File true).config "local") = false
    ∧ objLookup (configGet (load_deployment_config c6File true).config "local")
        "python_version" = some (.jnum 311) := ⟨rfl, rfl⟩

/-- C6, amended: for every state of the config file,
`load_deployment_config` returns (it never raises — every exception in
the merge and in the default-write step is caught, and the model is
total) a mapping whose keys are exactly `local, docker, kubernetes,
github` in that order; every returned record still contains every key of
the built-in default record for its environment (the merge only adds or
overwrites keys); and when the file is absent or malformed every record
is exactly schema-conformant.  Schema conformance of merged records
holds only when the user's overriding values themselves conform, since
overrides are taken verbatim. -/
theorem claim6_load_config_keys (file : ConfigFile) (writeOk : Bool) :
    ((load_deployment_config file writeOk).config.map Prod.fst
      = ["local", "docker", "kubernetes", "github"])
    ∧ (∀ env d r, (env, d) ∈ default_config →
        (env, r) ∈ (load_deployment_config file writeOk).config →
        ∀ k, (objLookup d k).isSome = true → (objLookup r k).isSome = true)
    ∧ ((file = .absent ∨ file = .malformed) →
        ∀ p ∈ (load_deployment_config file writeOk).config, specSchemaOk p.2 = true) := by
  have hdefaults : ∀ p ∈ default_config, specSchemaOk p.2 = true := by
    intro p hp
    simp [default_config] at hp
    rcases hp with h | h | h | h <;> rw [h] <;> rfl
  have hnodup : (default_config.map Prod.fst).Nodup := by decide
  cases file with
  | absent =>
    refine ⟨rfl, ?_, fun _ => hdefaults⟩
    intro env d r hd hr k hk
    have : d = r := assoc_keyUnique default_config hnodup env d r hd hr
    rwa [this] at hk
  | malformed =>
    refine ⟨rfl, ?_, fun _ => hdefaults⟩
    intro env d r hd hr k hk
    have : d = r := assoc_keyUnique default_config hnodup env d r hd hr
    rwa [this] at hk
  | parsed user =>
    have hcfg : (load_deployment_config (.parsed user) writeOk).config
        = (mergeLoop user [] default_config).1 := by
      rcases hm : mergeLoop user [] default_config with ⟨cfg, st⟩
      cases st <;> simp [load_deployment_config, hm]
    refine ⟨?_, ?_, ?_⟩
    · rw [hcfg, mergeLoop_map_fst]
      rfl
    · intro env d r hd hr k hk
      rw [hcfg] at hr
      rcases mergeLoop_mem user default_config [] env r hr with hacc | ⟨r₀, hr₀, hrel⟩
      · simp at hacc
      · have hdr : d = r₀ := assoc_keyUnique default_config hnodup env d r₀ hd hr₀
        subst hdr
        rcases hrel with h | ⟨fields, h⟩
        · rwa [h]
        · rw [h]
          exact objLookup_objUpdate_isSome fields d k hk
    · rintro (h | h) <;> exact ConfigFile.noConfusion h

/-- Witness for C6: instantiating the amended theorem at the malformed
file — the kubernetes record keeps its default `namespace` key and the
local record is schema-conformant. -/
theorem claim6_load_config_keys_witness :
    (objLookup defaultKubernetes "namespace").isSome = true
    ∧ specSchemaOk defaultLocal = true := by
  constructor
  · exact (claim6_load_config_keys .malformed true).2.1 "kubernetes"
      defaultKubernetes defaultKubernetes (by simp [default_config])
      (by simp [load_deployment_config, default_config]) "namespace" (by decide)
  · exact (claim6_load_config_keys .malformed true).2.2 (Or.inr rfl)
      ("local", defaultLocal) (by simp [load_deployment_config, default_config])

/-- The config file used in C7: it overrides only
`kubernetes.namespace`. -/
def c7File : ConfigFile :=
  .parsed (.jobj [("kubernetes", .jobj [("namespace", .jstr "production")])])

/-- C7: loading a config file that overrides only `kubernetes.namespace`
yields the new namespace, keeps every other kubernetes field at its
built-in default, and leaves the local, docker and github records
exactly the defaults — the merge is per-key, not whole-record. -/
theorem claim7_namespace_override_merge :
    objLookup (configGet (load_deployment_config c7File true).config "kubernetes")
        "namespace" = some (.jstr "production")
    ∧ (∀ k, k ≠ "namespace" →
        objLookup (configGet (load_deployment_config c7File true).config "kubernetes") k
          = objLookup defaultKubernetes k)
    ∧ configGet (load_deployment_config c7File true).config "local" = defaultLocal
    ∧ configGet (load_deployment_config c7File true).config "docker" = defaultDocker
    ∧ configGet (load_deployment_config c7File true).config "github" = defaultGithub := by
  refine ⟨rfl, ?_, rfl, rfl, rfl⟩
  intro k hk
  have hk' : ¬("namespace" = k) := fun h => hk h.symm
  show objLookup
    [("python_version", .jstr "3.11"),
     ("database", .jstr "postgresql"),
     ("redis_required", .jbool true),
     ("static_files", .jbool true),
     ("migrations", .jbool true),
     ("fixtures", .jbool false),
     ("namespace", .jstr "production"),
     ("helm_chart", .jstr "./charts/store-chart")] k = objLookup defaultKubernetes k
  simp [objLookup, defaultKubernetes, hk']

/-- Witness for C7: the `database` field of the kubernetes record is
untouched by the namespace override. -/
theorem claim7_namespace_override_merge_witness :
    objLookup (configGet (load_deployment_config c7File true).config "kubernetes")
      "database" = objLookup defaultKubernetes "database" :=
  claim7_namespace_override_merge.2.1 "database" (by decide)

/-- C8: `cleanup_old_backups` keeps exactly the `min 7 n` most recently
created entries (every deleted entry is strictly older than every kept
one, and together they are a permutation of the input), stated for
entries with pairwise-distinct creation times; and a failure during the
rotation is caught and only warned about — a deployment in which the
rotation fails still exits 0. -/
theorem claim8_backup_rotation (entries : List BackupEntry)
    (hdis : entries.Pairwise (fun a b => a.ctime ≠ b.ctime)) :
    ((cleanup_old_backups entries).2).length = min 7 entries.length
    ∧ ((cleanup_old_backups entries).1 ++ (cleanup_old_backups entries).2).Perm entries
    ∧ (∀ d ∈ (cleanup_old_backups entries).1, ∀ k ∈ (cleanup_old_backups entries).2,
        d.ctime < k.ctime)
    ∧ (deployRun { wNominal with cleanupFails := true } "local").exitCode = 0 := by
  have hsorted : (entries.mergeSort ctimeLe).Pairwise (fun a b => ctimeLe a b = true) :=
    List.sorted_mergeSort ctimeLe_trans ctimeLe_total entries
  have hperm : (entries.mergeSort ctimeLe).Perm entries :=
    List.mergeSort_perm entries ctimeLe
  have hlen : (entries.mergeSort ctimeLe).length = entries.length := hperm.length_eq
  have hsplit : entries.mergeSort ctimeLe
      = (entries.mergeSort ctimeLe).take ((entries.mergeSort ctimeLe).length - 7)
        ++ (entries.mergeSort ctimeLe).drop ((entries.mergeSort ctimeLe).length - 7) :=
    (List.take_append_drop _ _).symm
  refine ⟨?_, ?_, ?_, by decide⟩
  · show ((entries.mergeSort ctimeLe).drop ((entries.mergeSort ctimeLe).length - 7)).length
      = min 7 entries.length
    rw [List.length_drop, hlen]
    omega
  · show ((entries.mergeSort ctimeLe).take ((entries.mergeSort ctimeLe).length - 7)
      ++ (entries.mergeSort ctimeLe).drop ((entries.mergeSort ctimeLe).length - 7)).Perm entries
    rw [List.take_append_drop]
    exact hperm
  · intro d hd k hk
    have hle : ctimeLe d k = true := by
      have h := (List.pairwise_append.mp (hsplit ▸ hsorted)).2.2
      exact h d hd k hk
    have hdis' : (entries.mergeSort ctimeLe).Pairwise (fun a b => a.ctime ≠ b.ctime) :=
      (hperm.pairwise_iff (fun h => h.symm)).mpr hdis
    have hne : d.ctime ≠ k.ctime := by
      have h := (List.pairwise_append.mp (hsplit ▸ hdis')).2.2
      exact h d hd k hk
    simp [ctimeLe] at hle
    omega

/-- Ten backup entries with distinct creation times, listed in scrambled
directory order. -/
def c8Entries : List BackupEntry :=
  [⟨"backup_local_7", 7⟩, ⟨"backup_local_2", 2⟩, ⟨"backup_local_9", 9⟩,
   ⟨"backup_local_0", 0⟩, ⟨"backup_local_5", 5⟩, ⟨"backup_local_3", 3⟩,
   ⟨"backup_local_8", 8⟩, ⟨"backup_local_1", 1⟩, ⟨"backup_local_6", 6⟩,
   ⟨"backup_local_4", 4⟩]

/-- Witness for C8: after 10 backups exactly 7 remain. -/
theorem claim8_backup_rotation_witness :
    ((cleanup_old_backups c8Entries).2).length = 7 := by
  have h := (claim8_backup_rotation c8Entries (by decide)).1
  simpa using h

/-- C9, counterexample: the claim says any two distinct `create_backup`
calls — including two within the same second — produce different backup
directory names, so no call overwrites an existing backup.  The
timestamp is `int(time.time())`, so two calls in the same second produce
the SAME name; the second call's `mkdir(exist_ok=True)` silently reuses
the first call's directory and the copies overwrite its contents. -/
theorem claim9_same_second_collision :
    (create_backup "local" 1700000000
        (create_backup "local" 1700000000 []).2).1.path
      = (create_backup "local" 1700000000 []).1.path
    ∧ (create_backup "local" 1700000000
        (create_backup "local" 1700000000 []).2).1.reusedExisting = true := by
  constructor <;> rfl

/-- C9, amended: backup directory names are unique per (environment,
integer second), not per call: `backup_name env t₁ = backup_name env t₂`
exactly when `t₁ = t₂`, so calls in distinct seconds never collide, but
a second call within the same second targets the same path and finds the
directory already existing (`mkdir(exist_ok=True)` reuses it, the copies
overwrite the earlier backup's files). -/
theorem claim9_backup_name_uniqueness :
    (∀ env t₁ t₂, backup_name env t₁ = backup_name env t₂ ↔ t₁ = t₂)
    ∧ (∀ env t existing,
        (create_backup env t (create_backup env t existing).2).1.path
          = (create_backup env t existing).1.path
        ∧ (create_backup env t (create_backup env t existing).2).1.reusedExisting
            = true) := by
  refine ⟨backup_name_inj, ?_⟩
  intro env t existing
  refine ⟨rfl, ?_⟩
  show ((create_backup env t existing).2).contains (backup_name env t) = true
  by_cases hm : backup_name env t ∈ existing
  · simp [create_backup, hm]
  · simp [create_backup, hm]

/-- C10: when the config file exists but fails to parse,
`load_deployment_config` returns the defaults AND rewrites the file with
the serialized defaults, discarding the original content. -/
theorem claim10_malformed_config_overwritten :
    load_deployment_config .malformed true =
      { config := default_config, file := .parsed (configToJ default_config) } := rfl

end Deploy
